import Mathlib

/-!
Verification of the SolWaifu procedural animation core.

This file is a shallow embedding, in Lean 4, of the animation blending and
smoothing engine of the repository: the damped scalar interpolator
(`smoothDamp`), the per-joint smoothing constants, the look-at derived
neck/eye rotations, the talking-mouth synthesizer, the blink state machine,
and the expression sink of the VRM loader.  JavaScript numbers are modelled
as exact rationals (`ℚ`) where the code is pure arithmetic, and as reals
(`ℝ`) where the code samples trigonometric functions.
-/

/-- Frame-rate independent smooth interpolation, `smoothDamp` in the
ultra-smooth controller (src/unnamed/part_001, lines 10-22).  Returns the
pair `(value, velocity)` exactly as the source computes it; note that the
source contains no overshoot clamp. -/
def smoothDamp (current target velocity smoothTime deltaTime : ℚ) : ℚ × ℚ :=
  let omega := 2 / smoothTime
  let x := omega * deltaTime
  let exp := 1 / (1 + x + 0.48 * x * x + 0.235 * x * x * x)
  let change := current - target
  let temp := (velocity + omega * change) * deltaTime
  (target + (change + temp) * exp, (velocity - omega * temp) * exp)

/-- Smooth step easing, `smoothstep` in src/unnamed/part_001, lines 31-33. -/
def smoothstep (t : ℚ) : ℚ := t * t * (3 - 2 * t)

/-- The `this.smoothTime` table of the ultra-smooth controller
(src/unnamed/part_001, lines 87-93). -/
structure SmoothTimeTable where
  head : ℚ
  neck : ℚ
  body : ℚ
  arms : ℚ
  expression : ℚ

/-- Reference smoothing-time constants (src/unnamed/part_001, lines 87-93). -/
def smoothTime : SmoothTimeTable :=
  { head := 0.15, neck := 0.2, body := 0.4, arms := 0.25, expression := 0.12 }

/-- The smoothing mechanism `smoothUpdate` (src/unnamed/part_001, lines
314-378) applies to a channel: either the damped interpolator `smoothDamp`
with a smoothing-time constant, or a per-frame exponential decay
`c += (t - c) * (1 - base ^ dt)` with a decay base. -/
inductive Smoother where
  | damp (smoothingTime : ℚ)
  | expDecay (base : ℚ)
deriving DecidableEq

/-- Head channels are smooth-damped with `smoothTime.head`
(src/unnamed/part_001, lines 321-328). -/
def headSmoother : Smoother := .damp smoothTime.head

/-- Neck channels are smooth-damped with `smoothTime.neck`
(src/unnamed/part_001, lines 331-335). -/
def neckSmoother : Smoother := .damp smoothTime.neck

/-- Hips channels are smooth-damped with `smoothTime.body`
(src/unnamed/part_001, lines 338-345). -/
def hipsSmoother : Smoother := .damp smoothTime.body

/-- Spine (and chest) channels use the exponential factor
`bodyFactor = 1 - 0.03 ^ dt` (src/unnamed/part_001, lines 348-354); no
smoothing-time constant is involved. -/
def spineSmoother : Smoother := .expDecay 0.03

/-- Arm channels use the exponential factor `armFactor = 1 - 0.08 ^ dt`
(src/unnamed/part_001, lines 357-372); the table entry `smoothTime.arms`
is never passed to `smoothDamp`. -/
def armsSmoother : Smoother := .expDecay 0.08

/-- Expression channels use the exponential factor `exprFactor = 1 - 0.1 ^ dt`
(src/unnamed/part_001, lines 375-377). -/
def expressionSmoother : Smoother := .expDecay 0.1

/-- The smoothing-time constant of a channel's smoother, when it has one. -/
def smoothingTimeOf : Smoother → Option ℚ
  | .damp st => some st
  | .expDecay _ => none

/-- The ordering asserted by the spec: every one of the five body roles has a
smoothing-time constant in the smoothing stage, and those constants are
ordered `hips ≥ spine ≥ arms ≥ neck ≥ head`. -/
def hipsToHeadOrdering : Prop :=
  ∃ tHips tSpine tArms tNeck tHead : ℚ,
    smoothingTimeOf hipsSmoother = some tHips ∧
    smoothingTimeOf spineSmoother = some tSpine ∧
    smoothingTimeOf armsSmoother = some tArms ∧
    smoothingTimeOf neckSmoother = some tNeck ∧
    smoothingTimeOf headSmoother = some tHead ∧
    tSpine ≤ tHips ∧ tArms ≤ tSpine ∧ tNeck ≤ tArms ∧ tHead ≤ tNeck

/-- `lerp` of the premium controller (src/js/animations.js, lines 30-32);
the source's second parameter is named `end`, a reserved word in Lean. -/
def lerp (start finish t : ℚ) : ℚ := start + (finish - start) * t

/-- Neck targets of the ultra-smooth controller as a function of the head
*target* rotation (src/unnamed/part_001, lines 274-276):
`neckX = headX * 0.25`, `neckY = headY * 0.35`. -/
def ultraNeckTargets (headTargetX headTargetY : ℚ) : ℚ × ℚ :=
  (headTargetX * 0.25, headTargetY * 0.35)

/-- The smoothed head rotation state of the premium controller
(`this.smoothValues.headRot[XYZ]`, src/js/animations.js). -/
structure HeadSmoothState where
  headRotX : ℚ
  headRotY : ℚ
  headRotZ : ℚ

/-- `this.lookAtSmoothing` (src/js/animations.js, line 67). -/
def lookAtSmoothing : ℚ := 0.03

/-- One frame of the premium controller's head smoothing followed by the
neck write (src/js/animations.js, lines 423-437): the head rotation is
lerped toward the clamped targets, and the neck rotation is written as
`(headRotX * 0.3, headRotY * 0.4)` from the *smoothed* head rotation.
Returns the new smooth state and the `(neckX, neckY)` written. -/
def premiumHeadNeckStep (s : HeadSmoothState) (targetHeadX targetHeadY targetHeadZ : ℚ) :
    HeadSmoothState × (ℚ × ℚ) :=
  let headRotX := lerp s.headRotX targetHeadX lookAtSmoothing
  let headRotY := lerp s.headRotY targetHeadY lookAtSmoothing
  let headRotZ := lerp s.headRotZ targetHeadZ lookAtSmoothing
  (⟨headRotX, headRotY, headRotZ⟩, (headRotX * 0.3, headRotY * 0.4))

/-- `eyeMultiplier` of the premium controller (src/js/animations.js,
line 440). -/
def premiumEyeMultiplier : ℚ := 1.5

/-- Eye rotations applied by the premium controller
(src/js/animations.js, lines 439-448): each eye gets
`(headRotX * eyeMultiplier * 0.5, headRotY * eyeMultiplier)` from the
current smoothed head rotation. -/
def premiumEyeRot (headRotX headRotY : ℚ) : ℚ × ℚ :=
  (headRotX * premiumEyeMultiplier * 0.5, headRotY * premiumEyeMultiplier)

/-- `eyeMultiplier` of the ultra-smooth controller (src/unnamed/part_001,
line 479). -/
def ultraEyeMultiplier : ℚ := 0.8

/-- Eye rotations applied by the ultra-smooth controller
(src/unnamed/part_001, lines 478-487): each eye gets
`(headX * eyeMultiplier * 0.3, headY * eyeMultiplier)` from the current
smoothed head rotation. -/
def ultraEyeRot (headX headY : ℚ) : ℚ × ℚ :=
  (headX * ultraEyeMultiplier * 0.3, headY * ultraEyeMultiplier)

/-- Value passed to `setMouthOpen` by the premium controller while talking
(src/js/animations.js, lines 602-612):
`base = |sin(talkTime * 10)|`, `variation = |sin(talkTime * 6.7)| * 0.3`,
`pause = sin(talkTime * 1.8) > 0.5 ? 0.4 : 1`,
`mouthOpen = (base * 0.35 + variation) * pause * talkIntensity`, and the
sink receives `mouthOpen * 0.6`. -/
noncomputable def premiumMouthOpen (talkTime talkIntensity : ℝ) : ℝ :=
  let base := |Real.sin (talkTime * 10)|
  let variation := |Real.sin (talkTime * 6.7)| * 0.3
  let pause : ℝ := if Real.sin (talkTime * 1.8) > 0.5 then 0.4 else 1
  (base * 0.35 + variation) * pause * talkIntensity * 0.6

/-- Value passed to `setMouthOpen` by the ultra-smooth controller while
talking (src/unnamed/part_001, lines 571-581):
`base = sin(talkTime * 9) * 0.5 + 0.5`, `variation = sin(talkTime * 5.3) * 0.3`,
`pause = sin(talkTime * 1.5) > 0.3 ? 1 : 0.2`,
`mouthOpen = (base * 0.3 + variation * 0.15) * pause * talkIntensity`, and
the sink receives `max(0, min(0.5, mouthOpen))`. -/
noncomputable def ultraMouthOpen (talkTime talkIntensity : ℝ) : ℝ :=
  let base := Real.sin (talkTime * 9) * 0.5 + 0.5
  let variation := Real.sin (talkTime * 5.3) * 0.3
  let pause : ℝ := if Real.sin (talkTime * 1.5) > 0.3 then 1 else 0.2
  max 0 (min 0.5 ((base * 0.3 + variation * 0.15) * pause * talkIntensity))

/-- The blink state of the ultra-smooth controller (src/unnamed/part_001,
lines 104-107 and the `current.blinkValue` field). -/
structure BlinkState where
  blinkTimer : ℚ
  blinkInterval : ℚ
  isBlinking : Bool
  blinkProgress : ℚ
  blinkValue : ℚ

/-- Initial blink state of the ultra-smooth controller: `blinkTimer = 0`,
`blinkInterval = 3.5`, not blinking (src/unnamed/part_001, lines 104-107). -/
def ultraBlinkInit : BlinkState :=
  { blinkTimer := 0, blinkInterval := 3.5, isBlinking := false,
    blinkProgress := 0, blinkValue := 0 }

/-- One call to `updateBlinking(dt)` of the ultra-smooth controller
(src/unnamed/part_001, lines 592-628).  `rand` models the `Math.random()`
draw in `[0, 1]`.  When a blink finishes, the source resets
`blinkProgress` to `0` before evaluating the blink curve, which is
reproduced here by computing the curve from the already-reset progress. -/
def updateBlinking (s : BlinkState) (dt rand : ℚ) : BlinkState :=
  let timer := s.blinkTimer + dt
  if s.isBlinking then
    let progress0 := s.blinkProgress + dt * 10
    let progress := if progress0 ≥ 1 then 0 else progress0
    let blinkVal :=
      if progress < 0.35 then smoothstep (progress / 0.35)
      else 1 - smoothstep ((progress - 0.35) / 0.65)
    { blinkTimer := timer, blinkInterval := s.blinkInterval,
      isBlinking := if progress0 ≥ 1 then false else true,
      blinkProgress := progress, blinkValue := blinkVal }
  else if timer ≥ s.blinkInterval then
    { blinkTimer := 0, blinkInterval := 2.5 + rand * 4, isBlinking := true,
      blinkProgress := 0, blinkValue := s.blinkValue }
  else
    { blinkTimer := timer, blinkInterval := s.blinkInterval, isBlinking := false,
      blinkProgress := s.blinkProgress,
      blinkValue := if s.blinkValue > 0 then s.blinkValue * 0.8 else s.blinkValue }

/-- The blink state of the premium controller (src/js/animations.js,
lines 91-96). -/
structure PremiumBlinkState where
  blinkTimer : ℚ
  blinkInterval : ℚ
  isBlinking : Bool
  blinkProgress : ℚ
  isDoubleBlink : Bool

/-- Initial blink state of the premium controller: `blinkTimer = 0`,
`blinkInterval = 3.5`, not blinking (src/js/animations.js, lines 91-96). -/
def premiumBlinkInit : PremiumBlinkState :=
  { blinkTimer := 0, blinkInterval := 3.5, isBlinking := false,
    blinkProgress := 0, isDoubleBlink := false }

/-- One call to `updateBlinking(deltaTime)` of the premium controller
(src/js/animations.js, lines 623-657).  `rand` models the interval draw and
`rand2` the double-blink draw against `doubleBlinkChance = 0.15`.  The
blink value written to the sink each frame is not part of the machine
state and is omitted. -/
def updateBlinkingPremium (s : PremiumBlinkState) (dt rand rand2 : ℚ) :
    PremiumBlinkState :=
  let timer := s.blinkTimer + dt
  if s.isBlinking then
    let progress := s.blinkProgress + dt * 12
    if progress ≥ 1 then
      if s.isDoubleBlink ∧ progress < 1.3 then
        { s with blinkTimer := timer, blinkProgress := progress }
      else
        { s with blinkTimer := timer, isBlinking := false,
                 isDoubleBlink := false, blinkProgress := 0 }
    else
      { s with blinkTimer := timer, blinkProgress := progress }
  else if timer ≥ s.blinkInterval then
    { blinkTimer := 0, blinkInterval := 2.5 + rand * 4, isBlinking := true,
      blinkProgress := 0, isDoubleBlink := decide (rand2 < 0.15) }
  else
    { s with blinkTimer := timer }

/-- Blink interval draw of the simple controller (src/unnamed/part_002,
line 147): `2.5 + Math.random() * 3`. -/
def simpleBlinkIntervalDraw (rand : ℚ) : ℚ := 2.5 + rand * 3

/-- Iterate the ultra-smooth blink machine from its initial state over a
list of `(dt, rand)` frames. -/
def runBlink (steps : List (ℚ × ℚ)) : BlinkState :=
  steps.foldl (fun s p => updateBlinking s p.1 p.2) ultraBlinkInit

/-- Iterate the premium blink machine from its initial state over a list of
`(dt, rand, rand2)` frames. -/
def runBlinkPremium (steps : List (ℚ × ℚ × ℚ)) : PremiumBlinkState :=
  steps.foldl (fun s p => updateBlinkingPremium s p.1 p.2.1 p.2.2) premiumBlinkInit

/-- The humanoid joints written by the premium controller's `updateBody`
and `updateArms` routines (src/js/animations.js). -/
inductive Joint where
  | hips
  | spine
  | chest
  | upperChest
  | leftUpperArm
  | rightUpperArm
  | leftLowerArm
  | rightLowerArm
  | leftHand
  | rightHand
  | leftShoulder
  | rightShoulder
deriving DecidableEq

/-- A bone's local rotation (`rotation.x/y/z`). -/
structure Rot3 where
  x : ℝ
  y : ℝ
  z : ℝ

/-- The bone cache of the controller: a joint maps to `none` exactly when
`getNormalizedBoneNode` returned null for it on the loaded rig. -/
abbrev JointMap := Joint → Option Rot3

/-- Write to a joint's rotation if the bone is present — the
`if (bones.X) { bones.X.rotation... }` guard pattern of the source.  A
missing joint is skipped silently. -/
def writeJoint (m : JointMap) (j : Joint) (f : Rot3 → Rot3) : JointMap :=
  fun k => if k = j then (m k).map f else m k

/-- `lerp` of src/js/animations.js over the reals, for the bone-rotation
routines. -/
def lerpR (start finish t : ℝ) : ℝ := start + (finish - start) * t

/-- Per-frame inputs and smoothed state read by the premium `updateBody`
(src/js/animations.js, lines 351-389): `t` is `this.armTime`; `hipSway` is
the emotion modifier `emotionMod.hipSway || 0`; `microBodyX/Z` are the
micro-movement offsets; `bodySwayX/Z` is the smoothed sway state entering
the frame. -/
structure BodyParams where
  t : ℝ
  breathPhase : ℝ
  breathDepth : ℝ
  idleVariation : ℝ
  hipSway : ℝ
  microBodyX : ℝ
  microBodyZ : ℝ
  bodySwayX : ℝ
  bodySwayZ : ℝ

/-- The premium controller's `updateBody` (src/js/animations.js, lines
351-389).  Each `if (bones.X)` guard becomes a presence-conditioned write;
the smoothed sway pair is updated only when the hips bone is present,
exactly as in the source, and is returned with the updated bone map. -/
noncomputable def updateBody (bones : JointMap) (p : BodyParams) :
    (ℝ × ℝ) × JointMap :=
  let breath := Real.sin p.breathPhase * p.breathDepth
  let swaySpeed := 0.12 + p.idleVariation * 0.02
  let swayAmount := 0.03 + p.hipSway
  let targetY := Real.sin (p.t * swaySpeed * Real.pi * 2) * swayAmount
  let targetZ := Real.sin (p.t * swaySpeed * 0.7 * Real.pi * 2) * swayAmount * 0.5
  let swayX := if (bones .hips).isSome then lerpR p.bodySwayX targetY 0.02 else p.bodySwayX
  let swayZ := if (bones .hips).isSome then lerpR p.bodySwayZ targetZ 0.02 else p.bodySwayZ
  let b1 := writeJoint bones .hips fun r => { r with y := swayX, z := swayZ + p.microBodyZ }
  let b2 := writeJoint b1 .spine fun r =>
    { r with x := breath * 0.015 + p.microBodyX, y := -swayX * 0.5 }
  let b3 := writeJoint b2 .chest fun r => { r with x := breath * 0.025 }
  let b4 := writeJoint b3 .upperChest fun r => { r with x := breath * 0.015 }
  ((swayX, swayZ), b4)

/-- Per-frame inputs read by the premium `updateArms`
(src/js/animations.js, lines 452-517). -/
structure ArmParams where
  t : ℝ
  idleVariation : ℝ
  shoulderRaise : ℝ

/-- The premium controller's `updateArms` (src/js/animations.js, lines
452-517), with every `if (bones.X)` guard as a presence-conditioned
write. -/
noncomputable def updateArms (bones : JointMap) (p : ArmParams) : JointMap :=
  let swayMultiplier := 1 + p.idleVariation * 0.2
  let b1 := writeJoint bones .leftUpperArm fun r =>
    { x := lerpR r.x (0.15 + Real.sin (p.t * 0.7) * 0.04 * swayMultiplier) 0.05,
      y := lerpR r.y (0.1 + Real.sin (p.t * 0.9) * 0.03) 0.05,
      z := lerpR r.z (1.1 + Real.sin (p.t * 0.5) * 0.08 * swayMultiplier +
        Real.sin (p.t * 1.1) * 0.04) 0.05 }
  let b2 := writeJoint b1 .rightUpperArm fun r =>
    { x := lerpR r.x (0.15 + Real.sin (p.t * 0.7 + 0.5) * 0.04 * swayMultiplier) 0.05,
      y := lerpR r.y (-0.1 + Real.sin (p.t * 0.9 + 0.5) * 0.03) 0.05,
      z := lerpR r.z (-1.1 + Real.sin (p.t * 0.5 + Real.pi) * 0.08 * swayMultiplier +
        Real.sin (p.t * 1.1 + Real.pi) * 0.04) 0.05 }
  let b3 := writeJoint b2 .leftLowerArm fun r =>
    { r with y := lerpR r.y (-0.4 + Real.sin (p.t * 0.8) * 0.1) 0.05,
             z := Real.sin (p.t * 0.6) * 0.04 }
  let b4 := writeJoint b3 .rightLowerArm fun r =>
    { r with y := lerpR r.y (0.4 + Real.sin (p.t * 0.8 + Real.pi) * 0.1) 0.05,
             z := Real.sin (p.t * 0.6 + Real.pi) * 0.04 }
  let b5 := writeJoint b4 .leftHand fun r =>
    { r with x := 0.1 + Real.sin (p.t * 1.2) * 0.06,
             z := Real.sin (p.t * 0.7) * 0.05 }
  let b6 := writeJoint b5 .rightHand fun r =>
    { r with x := 0.1 + Real.sin (p.t * 1.2 + 0.3) * 0.06,
             z := Real.sin (p.t * 0.7 + 0.3) * 0.05 }
  let b7 := writeJoint b6 .leftShoulder fun r =>
    { r with z := Real.sin (p.t * 0.4) * 0.02 + p.shoulderRaise }
  let b8 := writeJoint b7 .rightShoulder fun r =>
    { r with z := Real.sin (p.t * 0.4 + 0.2) * 0.02 + p.shoulderRaise }
  b8

/-- The expression manager's channel table: a channel name maps to `none`
exactly when the loaded rig does not define that expression. -/
abbrev ExprMap := String → Option ℚ

/-- `expressionManager.setValue(name, v)`.  A write to a channel the rig
does not define fails inside the manager and is swallowed by the
`try { ... } catch (e) {}` guards of src/js/vrm-loader.js, so it is
modelled as a no-op on a missing channel. -/
def setValue (em : ExprMap) (name : String) (v : ℚ) : ExprMap :=
  fun k => if k = name then (em k).map fun _ => v else em k

/-- `VRMLoader.setExpression` (src/js/vrm-loader.js, lines 141-146): the
stored weight is `Math.max(0, Math.min(1, value))`. -/
def setExpression (em : ExprMap) (name : String) (v : ℚ) : ExprMap :=
  setValue em name (max 0 (min 1 v))

/-- The expression channels reset by `VRMLoader.resetExpressions`
(src/js/vrm-loader.js, lines 148-154). -/
def expressionNames : List String :=
  ["happy", "angry", "sad", "relaxed", "surprised", "aa", "ih", "ou", "ee", "oh",
    "blink", "blinkLeft", "blinkRight"]

/-- `VRMLoader.resetExpressions` (src/js/vrm-loader.js, lines 148-154):
writes `0` to every channel in `expressionNames` through the raw
`setValue`. -/
def resetExpressions (em : ExprMap) : ExprMap :=
  expressionNames.foldl (fun m e => setValue m e 0) em

/-- `VRMLoader.setBlink` (src/js/vrm-loader.js, lines 161-165). -/
def setBlink (em : ExprMap) (v : ℚ) : ExprMap :=
  setExpression (setExpression (setExpression em "blink" v) "blinkLeft" v) "blinkRight" v

/-- `VRMLoader.setWink` (src/js/vrm-loader.js, lines 166-169). -/
def setWink (em : ExprMap) (isLeft : Bool) : ExprMap :=
  setExpression (setExpression em "blinkLeft" (if isLeft then 1 else 0))
    "blinkRight" (if isLeft then 0 else 1)

/-- A call on the expression sink's public interface.  `setHappy`,
`setSad`, `setAngry`, `setSurprised` and `setMouthOpen`
(src/js/vrm-loader.js, lines 156-160) are `set` with a fixed channel
name. -/
inductive SinkOp where
  | set (name : String) (v : ℚ)
  | blink (v : ℚ)
  | wink (isLeft : Bool)
  | reset

/-- Apply one sink call. -/
def applyOp (em : ExprMap) : SinkOp → ExprMap
  | .set n v => setExpression em n v
  | .blink v => setBlink em v
  | .wink b => setWink em b
  | .reset => resetExpressions em

/-- Run a sequence of sink calls. -/
def runOps (ops : List SinkOp) (em : ExprMap) : ExprMap :=
  ops.foldl applyOp em

/-- Every weight the sink holds lies in `[0, 1]`. -/
def WeightsBounded (em : ExprMap) : Prop :=
  ∀ ch w, em ch = some w → 0 ≤ w ∧ w ≤ 1

/- ========================= theorems ========================= -/

/-- Starting from rest, the value returned by `smoothDamp` is
`target + (current - target) * r` where `r` is the spring decay factor. -/
theorem smoothDamp_rest_value (c t st dt : ℚ) :
    (smoothDamp c t 0 st dt).1 =
      t + (c - t) * ((1 + 2 / st * dt) *
        (1 / (1 + 2 / st * dt + 0.48 * (2 / st * dt) * (2 / st * dt) +
          0.235 * (2 / st * dt) * (2 / st * dt) * (2 / st * dt)))) := by
  simp only [smoothDamp]
  ring

/-- The cubic denominator of the spring decay factor is positive for
positive `x = omega * deltaTime`. -/
theorem springDenom_pos {x : ℚ} (hx : 0 < x) :
    0 < 1 + x + 0.48 * x * x + 0.235 * x * x * x := by
  nlinarith [mul_pos hx hx, mul_pos (mul_pos hx hx) hx]

/-- The spring decay factor `(1 + x) / (1 + x + 0.48 x^2 + 0.235 x^3)` is
positive for positive `x`. -/
theorem springFactor_pos {x : ℚ} (hx : 0 < x) :
    0 < (1 + x) * (1 / (1 + x + 0.48 * x * x + 0.235 * x * x * x)) :=
  mul_pos (by linarith) (one_div_pos.mpr (springDenom_pos hx))

/-- The spring decay factor is strictly below one for positive `x`. -/
theorem springFactor_lt_one {x : ℚ} (hx : 0 < x) :
    (1 + x) * (1 / (1 + x + 0.48 * x * x + 0.235 * x * x * x)) < 1 := by
  rw [mul_one_div, div_lt_one (springDenom_pos hx)]
  nlinarith [mul_pos hx hx, mul_pos (mul_pos hx hx) hx]

/-- C1: for every initial value, target, smoothing time `st > 0` and
`0 < dt < 1`, starting with velocity `0` and `current ≠ target`, the value
returned by `smoothDamp current target 0 st dt` lies between `current` and
`target` inclusive: the approach from rest never overshoots. -/
theorem smoothDamp_rest_no_overshoot (c t st dt : ℚ) (hst : 0 < st)
    (hdt0 : 0 < dt) (hdt1 : dt < 1) (hne : c ≠ t) :
    min c t ≤ (smoothDamp c t 0 st dt).1 ∧ (smoothDamp c t 0 st dt).1 ≤ max c t := by
  have hx : 0 < 2 / st * dt := mul_pos (div_pos two_pos hst) hdt0
  have h0 := springFactor_pos hx
  have h1 := springFactor_lt_one hx
  rw [smoothDamp_rest_value]
  set r := (1 + 2 / st * dt) *
      (1 / (1 + 2 / st * dt + 0.48 * (2 / st * dt) * (2 / st * dt) +
        0.235 * (2 / st * dt) * (2 / st * dt) * (2 / st * dt))) with hr
  rcases lt_or_gt_of_ne hne with hlt | hgt
  · have hneg : c - t < 0 := by linarith
    have k1 : (c - t) * 1 < (c - t) * r := mul_lt_mul_of_neg_left h1 hneg
    have k2 : (c - t) * r < 0 := mul_neg_of_neg_of_pos hneg h0
    constructor
    · rw [min_eq_left hlt.le]
      linarith
    · rw [max_eq_right hlt.le]
      linarith
  · have hpos : 0 < c - t := by linarith
    have k1 : (c - t) * r < (c - t) * 1 := mul_lt_mul_of_pos_left h1 hpos
    have k2 : 0 < (c - t) * r := mul_pos hpos h0
    constructor
    · rw [min_eq_right hgt.le]
      linarith
    · rw [max_eq_left hgt.le]
      linarith

/-- C1 witness: the no-overshoot theorem evaluated at
`current = 1, target = 0, smoothTime = 1, deltaTime = 1/2`. -/
theorem smoothDamp_rest_no_overshoot_witness :
    (0:ℚ) < 1 ∧ (0:ℚ) < 1/2 ∧ (1:ℚ)/2 < 1 ∧ (1:ℚ) ≠ 0 ∧
      (min (1:ℚ) 0 ≤ (smoothDamp 1 0 0 1 (1/2)).1 ∧
        (smoothDamp 1 0 0 1 (1/2)).1 ≤ max 1 0) :=
  ⟨one_pos, by norm_num, by norm_num, by norm_num,
    smoothDamp_rest_no_overshoot 1 0 1 (1/2) one_pos (by norm_num) (by norm_num)
      (by norm_num)⟩

/-- C2 counterexample: at `current = 1, target = 0, velocity = -100,
smoothTime = 1, deltaTime = 1/2` the sign of `target - current` differs from
the sign of `target - newValue`, yet the returned value is not clamped to
`target` and the returned velocity is not `(newValue - target) / deltaTime`:
the source `smoothDamp` contains no overshoot clamp. -/
theorem smoothDamp_no_clamp_counterexample :
    ((0:ℚ) - 1 < 0 ∧ 0 < (0:ℚ) - (smoothDamp 1 0 (-100) 1 (1/2)).1) ∧
      (smoothDamp 1 0 (-100) 1 (1/2)).1 ≠ 0 ∧
      (smoothDamp 1 0 (-100) 1 (1/2)).2 ≠
        ((smoothDamp 1 0 (-100) 1 (1/2)).1 - 0) / (1/2) := by
  simp only [smoothDamp]
  norm_num

/-- C2 (amended): `smoothDamp` performs no clamping at all; what does hold is
that when the starting velocity is `0` (and `smoothTime > 0`, `deltaTime > 0`)
the sign of `target - current` always matches the sign of
`target - newValue`, so the clamp condition described by the claim can never
fire on an approach from rest. -/
theorem smoothDamp_rest_no_sign_mismatch (c t st dt : ℚ) (hst : 0 < st)
    (hdt : 0 < dt) :
    0 ≤ (t - c) * (t - (smoothDamp c t 0 st dt).1) := by
  have hx : 0 < 2 / st * dt := mul_pos (div_pos two_pos hst) hdt
  have h0 := springFactor_pos hx
  rw [smoothDamp_rest_value]
  set r := (1 + 2 / st * dt) *
      (1 / (1 + 2 / st * dt + 0.48 * (2 / st * dt) * (2 / st * dt) +
        0.235 * (2 / st * dt) * (2 / st * dt) * (2 / st * dt))) with hr
  have hsq : t - (t + (c - t) * r) = (t - c) * r := by ring
  rw [hsq]
  nlinarith [mul_nonneg (mul_self_nonneg (t - c)) h0.le]

/-- C2 amended-claim witness at `current = 1, target = 0, smoothTime = 1,
deltaTime = 1/2`. -/
theorem smoothDamp_rest_no_sign_mismatch_witness :
    (0:ℚ) < 1 ∧ (0:ℚ) < 1/2 ∧
      0 ≤ ((0:ℚ) - 1) * (0 - (smoothDamp 1 0 0 1 (1/2)).1) :=
  ⟨one_pos, by norm_num,
    smoothDamp_rest_no_sign_mismatch 1 0 1 (1/2) one_pos (by norm_num)⟩

/-- C6: for every talk intensity in `[0, 1]` and every elapsed talk time,
the mouth-open value written during the talking state never exceeds the cap
`0.55`: the premium controller's value is bounded by `0.39` and the
ultra-smooth controller clamps its value to at most `0.5`. -/
theorem mouthOpen_le_cap (tt i : ℝ) (h0 : 0 ≤ i) (h1 : i ≤ 1) :
    premiumMouthOpen tt i ≤ 0.55 ∧ ultraMouthOpen tt i ≤ 0.55 := by
  constructor
  · simp only [premiumMouthOpen]
    have hb1 : |Real.sin (tt * 10)| ≤ 1 :=
      abs_le.mpr ⟨Real.neg_one_le_sin _, Real.sin_le_one _⟩
    have hb0 : 0 ≤ |Real.sin (tt * 10)| := abs_nonneg _
    have hv1 : |Real.sin (tt * 6.7)| ≤ 1 :=
      abs_le.mpr ⟨Real.neg_one_le_sin _, Real.sin_le_one _⟩
    have hv0 : 0 ≤ |Real.sin (tt * 6.7)| := abs_nonneg _
    have hAi : (|Real.sin (tt * 10)| * 0.35 + |Real.sin (tt * 6.7)| * 0.3) * i ≤ 0.65 * 1 :=
      mul_le_mul (by linarith) h1 h0 (by norm_num)
    have hAi0 : 0 ≤ (|Real.sin (tt * 10)| * 0.35 + |Real.sin (tt * 6.7)| * 0.3) * i :=
      mul_nonneg (by linarith) h0
    split_ifs with hp
    · nlinarith [hAi, hAi0]
    · nlinarith [hAi, hAi0]
  · simp only [ultraMouthOpen]
    exact max_le (by norm_num) (le_trans (min_le_left _ _) (by norm_num))

/-- C6 witness: the cap theorem at `talkTime = 0`, `talkIntensity = 1`. -/
theorem mouthOpen_le_cap_witness :
    premiumMouthOpen 0 1 ≤ 0.55 ∧ ultraMouthOpen 0 1 ≤ 0.55 :=
  mouthOpen_le_cap 0 1 zero_le_one le_rfl

/-- C3 counterexample: the claimed five-way ordering presupposes that the
smoothing stage assigns a smoothing-time constant to the spine, but spine
channels are smoothed with the exponential factor `1 - 0.03 ^ dt` and have
no smoothing-time constant, so the claimed ordering fails. -/
theorem hipsToHeadOrdering_false : ¬ hipsToHeadOrdering := by
  rintro ⟨tHips, tSpine, tArms, tNeck, tHead, -, hSpine, -⟩
  simp [spineSmoother, smoothingTimeOf] at hSpine

/-- C3 (amended): among the table constants actually indexed by the
smoothing stage (with the hips channels using `smoothTime.body`), the
ordering `body ≥ arms ≥ neck ≥ head` holds; but the spine and arm channels
are smoothed by exponential decay (bases `0.03` and `0.08` respectively),
so no smoothing-time constant exists for the spine and the five-way chain
of the claim does not apply as stated. -/
theorem smoothTime_ordering_amended :
    smoothTime.arms ≤ smoothTime.body ∧ smoothTime.neck ≤ smoothTime.arms ∧
      smoothTime.head ≤ smoothTime.neck ∧
      hipsSmoother = .damp smoothTime.body ∧ neckSmoother = .damp smoothTime.neck ∧
      headSmoother = .damp smoothTime.head ∧ spineSmoother = .expDecay 0.03 ∧
      armsSmoother = .expDecay 0.08 ∧ smoothingTimeOf spineSmoother = none ∧
      smoothingTimeOf armsSmoother = none := by
  refine ⟨?_, ?_, ?_, rfl, rfl, rfl, rfl, rfl, rfl, rfl⟩ <;> norm_num [smoothTime]

/-- C4 counterexample: in the premium controller two frames with the *same*
head target but different current smoothed head rotations write different
neck rotations, so the neck is not a function of the head's target value
alone; it is derived from the head's current smoothed rotation. -/
theorem premiumNeck_not_target_driven :
    (premiumHeadNeckStep ⟨0, 0, 0⟩ 1 1 0).2 ≠ (premiumHeadNeckStep ⟨1, 1, 0⟩ 1 1 0).2 := by
  simp only [premiumHeadNeckStep, lerp, lookAtSmoothing]
  norm_num

/-- C4 (amended): in the ultra-smooth controller the neck target is a fixed
damping-free fraction of the head *target* (yaw x 0.35, pitch x 0.25); in
the premium controller the neck rotation is instead a fixed fraction
(yaw x 0.4, pitch x 0.3) of the head's *current smoothed* rotation produced
by this frame's lerp step. -/
theorem neckFollowsHead_amended (hX hY : ℚ) (s : HeadSmoothState) (tX tY tZ : ℚ) :
    ultraNeckTargets hX hY = (hX * 0.25, hY * 0.35) ∧
      (premiumHeadNeckStep s tX tY tZ).2.1 =
        (premiumHeadNeckStep s tX tY tZ).1.headRotX * 0.3 ∧
      (premiumHeadNeckStep s tX tY tZ).2.2 =
        (premiumHeadNeckStep s tX tY tZ).1.headRotY * 0.4 :=
  ⟨rfl, rfl, rfl⟩

/-- C5 counterexample: in the ultra-smooth controller, with the head yaw at
`1`, the applied eye yaw is `0.8`: the eye multiplier is `0.8`, which is not
in `[1.5, 2]`, and the eye rotates *less* than the head. -/
theorem ultraEye_multiplier_below_head :
    (ultraEyeRot 1 1).2 = 0.8 ∧ ¬ ((1.5:ℚ) ≤ (ultraEyeRot 1 1).2) ∧
      (ultraEyeRot 1 1).2 < 1 := by
  norm_num [ultraEyeRot, ultraEyeMultiplier]

/-- C5 (amended): eyes receive no independent idle noise in either
controller; each eye's rotation is a fixed constant multiple of the head's
current rotation.  In the premium controller the yaw multiplier is `1.5`
(within the claimed `[1.5, 2]`) but the pitch multiplier is `0.75`; in the
ultra-smooth controller the multipliers are `0.8` (yaw) and `0.24` (pitch),
both below `1`. -/
theorem eyeRot_fixed_multiple_amended (hX hY : ℚ) :
    premiumEyeRot hX hY = (hX * 0.75, hY * 1.5) ∧
      ultraEyeRot hX hY = (hX * 0.24, hY * 0.8) ∧
      (1.5:ℚ) ≤ premiumEyeMultiplier ∧ premiumEyeMultiplier ≤ 2 ∧
      ultraEyeMultiplier < 1 := by
  refine ⟨?_, ?_, by norm_num [premiumEyeMultiplier], by norm_num [premiumEyeMultiplier],
    by norm_num [ultraEyeMultiplier]⟩
  · simp only [premiumEyeRot, premiumEyeMultiplier, Prod.mk.injEq]
    constructor <;> ring_nf
  · simp only [ultraEyeRot, ultraEyeMultiplier, Prod.mk.injEq]
    constructor <;> ring_nf

/-- A single ultra-smooth blink step keeps the stored interval in
`[2.5, 6.5]` when the random draw lies in `[0, 1]`. -/
theorem updateBlinking_interval (s : BlinkState) (dt rand : ℚ)
    (hr0 : 0 ≤ rand) (hr1 : rand ≤ 1)
    (h : 2.5 ≤ s.blinkInterval ∧ s.blinkInterval ≤ 6.5) :
    2.5 ≤ (updateBlinking s dt rand).blinkInterval ∧
      (updateBlinking s dt rand).blinkInterval ≤ 6.5 := by
  simp only [updateBlinking]
  split_ifs <;> simp only [] <;> constructor <;> first
    | exact h.1
    | exact h.2
    | linarith

/-- A single premium blink step keeps the stored interval in `[2.5, 6.5]`
when the interval draw lies in `[0, 1]`. -/
theorem updateBlinkingPremium_interval (s : PremiumBlinkState) (dt rand rand2 : ℚ)
    (hr0 : 0 ≤ rand) (hr1 : rand ≤ 1)
    (h : 2.5 ≤ s.blinkInterval ∧ s.blinkInterval ≤ 6.5) :
    2.5 ≤ (updateBlinkingPremium s dt rand rand2).blinkInterval ∧
      (updateBlinkingPremium s dt rand rand2).blinkInterval ≤ 6.5 := by
  simp only [updateBlinkingPremium]
  split_ifs <;> simp only [] <;> constructor <;> first
    | exact h.1
    | exact h.2
    | linarith

/-- The interval invariant propagates along any ultra-smooth run. -/
theorem foldBlink_interval (steps : List (ℚ × ℚ)) (s : BlinkState)
    (hsteps : ∀ p ∈ steps, 0 ≤ p.2 ∧ p.2 ≤ 1)
    (h : 2.5 ≤ s.blinkInterval ∧ s.blinkInterval ≤ 6.5) :
    2.5 ≤ (steps.foldl (fun s p => updateBlinking s p.1 p.2) s).blinkInterval ∧
      (steps.foldl (fun s p => updateBlinking s p.1 p.2) s).blinkInterval ≤ 6.5 := by
  induction steps generalizing s with
  | nil => simpa using h
  | cons p ps ih =>
      simp only [List.foldl_cons]
      refine ih _ (fun q hq => hsteps q (List.mem_cons_of_mem _ hq)) ?_
      exact updateBlinking_interval s p.1 p.2 (hsteps p (List.mem_cons_self _ _)).1
        (hsteps p (List.mem_cons_self _ _)).2 h

/-- The interval invariant propagates along any premium run. -/
theorem foldBlinkPremium_interval (steps : List (ℚ × ℚ × ℚ)) (s : PremiumBlinkState)
    (hsteps : ∀ p ∈ steps, 0 ≤ p.2.1 ∧ p.2.1 ≤ 1)
    (h : 2.5 ≤ s.blinkInterval ∧ s.blinkInterval ≤ 6.5) :
    2.5 ≤ (steps.foldl (fun s p => updateBlinkingPremium s p.1 p.2.1 p.2.2) s).blinkInterval ∧
      (steps.foldl (fun s p => updateBlinkingPremium s p.1 p.2.1 p.2.2) s).blinkInterval ≤ 6.5 := by
  induction steps generalizing s with
  | nil => simpa using h
  | cons p ps ih =>
      simp only [List.foldl_cons]
      refine ih _ (fun q hq => hsteps q (List.mem_cons_of_mem _ hq)) ?_
      exact updateBlinkingPremium_interval s p.1 p.2.1 p.2.2
        (hsteps p (List.mem_cons_self _ _)).1 (hsteps p (List.mem_cons_self _ _)).2 h

/-- C7: provided every random draw lies in `[0, 1]`, in every reachable
state of both blink machines the stored blink interval lies in
`[2.5, 6.5]` seconds (re-randomized as `2.5 + rand * 4` on each blink
trigger), and the simple controller's draw `2.5 + rand * 3` also lies in
`[2.5, 6.5]`. -/
theorem blinkInterval_in_range (steps : List (ℚ × ℚ)) (psteps : List (ℚ × ℚ × ℚ)) (r : ℚ)
    (hsteps : ∀ p ∈ steps, 0 ≤ p.2 ∧ p.2 ≤ 1)
    (hpsteps : ∀ p ∈ psteps, 0 ≤ p.2.1 ∧ p.2.1 ≤ 1)
    (hr0 : 0 ≤ r) (hr1 : r ≤ 1) :
    (2.5 ≤ (runBlink steps).blinkInterval ∧ (runBlink steps).blinkInterval ≤ 6.5) ∧
      (2.5 ≤ (runBlinkPremium psteps).blinkInterval ∧
        (runBlinkPremium psteps).blinkInterval ≤ 6.5) ∧
      (2.5 ≤ simpleBlinkIntervalDraw r ∧ simpleBlinkIntervalDraw r ≤ 6.5) := by
  refine ⟨foldBlink_interval steps ultraBlinkInit hsteps ?_,
    foldBlinkPremium_interval psteps premiumBlinkInit hpsteps ?_, ?_, ?_⟩
  · constructor <;> norm_num [ultraBlinkInit]
  · constructor <;> norm_num [premiumBlinkInit]
  · simp only [simpleBlinkIntervalDraw]
    linarith
  · simp only [simpleBlinkIntervalDraw]
    linarith

/-- C7 witness: the interval-range theorem on a one-frame ultra run, a
one-frame premium run, and the draw `r = 1/2`. -/
theorem blinkInterval_in_range_witness :
    ((2.5:ℚ) ≤ (runBlink [(1/60, 1/2)]).blinkInterval ∧
        (runBlink [(1/60, 1/2)]).blinkInterval ≤ 6.5) ∧
      ((2.5:ℚ) ≤ (runBlinkPremium [(1/60, 1/2, 1/2)]).blinkInterval ∧
        (runBlinkPremium [(1/60, 1/2, 1/2)]).blinkInterval ≤ 6.5) ∧
      ((2.5:ℚ) ≤ simpleBlinkIntervalDraw (1/2) ∧ simpleBlinkIntervalDraw (1/2) ≤ 6.5) :=
  blinkInterval_in_range [(1/60, 1/2)] [(1/60, 1/2, 1/2)] (1/2)
    (by intro p hp; simp only [List.mem_singleton] at hp; subst hp; norm_num)
    (by intro p hp; simp only [List.mem_singleton] at hp; subst hp; norm_num)
    (by norm_num) (by norm_num)

/-- Writing through a presence guard preserves which joints are present. -/
theorem writeJoint_isSome (m : JointMap) (j : Joint) (f : Rot3 → Rot3) (k : Joint) :
    (writeJoint m j f k).isSome = (m k).isSome := by
  unfold writeJoint
  split
  · cases m k <;> rfl
  · rfl

/-- Writing through the channel guard preserves which channels are
defined. -/
theorem setValue_isSome (em : ExprMap) (name : String) (v : ℚ) (ch : String) :
    (setValue em name v ch).isSome = (em ch).isSome := by
  unfold setValue
  split
  · cases em ch <;> rfl
  · rfl

/-- C8: on a rig with an arbitrary subset of joints and expression channels
present, the body and arm routines and the expression setter are total
functions that write to exactly the present joints and channels: after a
tick, a joint holds a rotation if and only if it was present before, and a
stored expression weight exists if and only if the channel is defined;
missing ones are skipped silently while everything else is written. -/
theorem missing_capability_skipped (bones : JointMap) (bp : BodyParams)
    (ap : ArmParams) (em : ExprMap) (name : String) (v : ℚ) (j : Joint)
    (ch : String) :
    (updateArms (updateBody bones bp).2 ap j).isSome = (bones j).isSome ∧
      (setExpression em name v ch).isSome = (em ch).isSome := by
  constructor
  · simp only [updateArms, updateBody, writeJoint_isSome]
  · simp only [setExpression, setValue_isSome]

/-- A guarded channel write leaves other channels untouched. -/
theorem setValue_eq_of_ne (em : ExprMap) (name : String) (v : ℚ) (ch : String)
    (h : ch ≠ name) : setValue em name v ch = em ch := by
  unfold setValue
  simp [h]

/-- A guarded channel write stores the value on the named channel when the
rig defines it. -/
theorem setValue_self (em : ExprMap) (name : String) (v : ℚ) :
    setValue em name v name = (em name).map fun _ => v := by
  unfold setValue
  simp

/-- Folding zero-writes over a list leaves channels outside the list
untouched. -/
theorem foldSetZero_not_mem (l : List String) (em : ExprMap) (ch : String)
    (h : ch ∉ l) :
    l.foldl (fun m e => setValue m e 0) em ch = em ch := by
  induction l generalizing em with
  | nil => rfl
  | cons e es ih =>
      simp only [List.foldl_cons]
      rw [ih _ fun hm => h (List.mem_cons_of_mem _ hm)]
      exact setValue_eq_of_ne em e 0 ch fun he => h (by simp [he])

/-- Folding zero-writes over a list stores `0` on every defined channel in
the list. -/
theorem foldSetZero_mem (l : List String) (em : ExprMap) (ch : String)
    (hm : ch ∈ l) (hp : (em ch).isSome = true) :
    l.foldl (fun m e => setValue m e 0) em ch = some 0 := by
  induction l generalizing em with
  | nil => cases hm
  | cons e es ih =>
      simp only [List.foldl_cons]
      by_cases hch : ch ∈ es
      · exact ih _ hch (by rw [setValue_isSome]; exact hp)
      · have he : ch = e := by
          rcases List.mem_cons.mp hm with h1 | h2
          · exact h1
          · exact absurd h2 hch
        subst he
        rw [foldSetZero_not_mem es _ ch hch, setValue_self]
        obtain ⟨w, hw⟩ := Option.isSome_iff_exists.mp hp
        rw [hw]
        rfl

/-- C9: after `resetExpressions`, reading any of the thirteen known
expression channels — happy, angry, sad, relaxed, surprised, aa, ih, ou,
ee, oh, blink, blinkLeft, blinkRight — that the rig defines yields `0`. -/
theorem resetExpressions_zero (em : ExprMap) (ch : String)
    (hm : ch ∈ expressionNames) (hp : (em ch).isSome = true) :
    resetExpressions em ch = some 0 :=
  foldSetZero_mem expressionNames em ch hm hp

/-- C9 witness: on a rig defining every channel with weight `7/10`,
resetting and then reading the `happy` channel yields `0`. -/
theorem resetExpressions_zero_witness :
    resetExpressions (fun _ => some (7/10)) "happy" = some 0 :=
  resetExpressions_zero (fun _ => some (7/10)) "happy" (by simp [expressionNames]) rfl

/-- A raw channel write with a value in `[0, 1]` preserves boundedness of
the sink. -/
theorem setValue_bounded (em : ExprMap) (name : String) (v : ℚ)
    (hem : WeightsBounded em) (hv : 0 ≤ v ∧ v ≤ 1) :
    WeightsBounded (setValue em name v) := by
  intro ch w hw
  unfold setValue at hw
  split at hw
  · cases h : em ch with
    | none => rw [h] at hw; cases hw
    | some u =>
        rw [h] at hw
        injection hw with h2
        subst h2
        exact hv
  · exact hem ch w hw

/-- The clamped value stored by `setExpression` lies in `[0, 1]`. -/
theorem clamp_bounds (v : ℚ) : 0 ≤ max 0 (min 1 v) ∧ max 0 (min 1 v) ≤ 1 :=
  ⟨le_max_left _ _, max_le zero_le_one (min_le_left _ _)⟩

/-- `setExpression` preserves boundedness of the sink. -/
theorem setExpression_bounded (em : ExprMap) (name : String) (v : ℚ)
    (hem : WeightsBounded em) : WeightsBounded (setExpression em name v) :=
  setValue_bounded em name _ hem (clamp_bounds v)

/-- Folding zero-writes preserves boundedness of the sink. -/
theorem foldSetZero_bounded (l : List String) (em : ExprMap)
    (hem : WeightsBounded em) :
    WeightsBounded (l.foldl (fun m e => setValue m e 0) em) := by
  induction l generalizing em with
  | nil => exact hem
  | cons e es ih =>
      simp only [List.foldl_cons]
      exact ih _ (setValue_bounded em e 0 hem ⟨le_rfl, zero_le_one⟩)

/-- Every sink call preserves boundedness. -/
theorem applyOp_bounded (em : ExprMap) (op : SinkOp) (hem : WeightsBounded em) :
    WeightsBounded (applyOp em op) := by
  cases op with
  | set n v => exact setExpression_bounded em n v hem
  | blink v =>
      exact setExpression_bounded _ _ _
        (setExpression_bounded _ _ _ (setExpression_bounded _ _ _ hem))
  | wink b => exact setExpression_bounded _ _ _ (setExpression_bounded _ _ _ hem)
  | reset => exact foldSetZero_bounded expressionNames em hem

/-- Any sequence of sink calls preserves boundedness. -/
theorem runOps_bounded (ops : List SinkOp) (em : ExprMap) (hem : WeightsBounded em) :
    WeightsBounded (runOps ops em) := by
  unfold runOps
  induction ops generalizing em with
  | nil => exact hem
  | cons op rest ih =>
      simp only [List.foldl_cons]
      exact ih _ (applyOp_bounded em op hem)

/-- C10: on a defined channel, the weight stored by the sink's
`setExpression` is exactly `clamp(v, 0, 1)`; and starting from a sink whose
weights lie in `[0, 1]`, after any sequence of sink calls every weight the
sink holds still lies in `[0, 1]`. -/
theorem sink_weights_clamped (em : ExprMap) (ops : List SinkOp)
    (name ch : String) (v w : ℚ)
    (hinit : WeightsBounded em)
    (hname : (em name).isSome = true)
    (hw : runOps ops em ch = some w) :
    setExpression em name v name = some (max 0 (min 1 v)) ∧ 0 ≤ w ∧ w ≤ 1 := by
  refine ⟨?_, runOps_bounded ops em hinit ch w hw⟩
  rw [setExpression, setValue_self]
  obtain ⟨u, hu⟩ := Option.isSome_iff_exists.mp hname
  rw [hu]
  rfl

/-- C10 witness: from the all-zero sink, the call `setExpression("happy", 5)`
stores the clamped weight `1`, which lies in `[0, 1]`; and a clamp
evaluation on channel `aa`. -/
theorem sink_weights_clamped_witness :
    setExpression (fun _ => some 0) "aa" 5 "aa" = some (max 0 (min 1 5)) ∧
      (0:ℚ) ≤ 1 ∧ (1:ℚ) ≤ 1 :=
  sink_weights_clamped (fun _ => some 0) [.set "happy" 5] "aa" "happy" 5 1
    (fun ch w hw => by
      injection hw with h
      subst h
      exact ⟨le_rfl, zero_le_one⟩)
    rfl
    (by
      simp only [runOps, List.foldl_cons, List.foldl_nil, applyOp, setExpression, setValue,
        if_true, Option.map_some']
      norm_num [max_def, min_def])
